import Mathlib

/- Shallow embedding of the SSD1963 TFT library (tft.py) and of the
   slide show controller (slides.py).  Bus traffic is modelled as the
   list of bytes placed on the 8-bit data port, each tagged with the
   state of the data/command select line; stores through a byte pointer
   truncate modulo 256, exactly as the hardware port does. -/

namespace TFTModel

/-- One byte placed on the data port: `cmd = true` means the
data/command select line was asserted (command byte), `false` means a
payload byte. -/
structure DCByte where
  cmd : Bool
  val : Nat
deriving DecidableEq, Repr

/-- Byte stream of `TFT.setXY_P` (tft.py, portrait variant): command
0x2B with x1, x2 (high byte then low byte), command 0x2A with y1, y2,
then command 0x2C. -/
def setXY_P (x1 y1 x2 y2 : Nat) : List DCByte :=
  [⟨true, 0x2b⟩,
   ⟨false, (x1 >>> 8) % 256⟩, ⟨false, x1 &&& 0xff⟩,
   ⟨false, (x2 >>> 8) % 256⟩, ⟨false, x2 &&& 0xff⟩,
   ⟨true, 0x2a⟩,
   ⟨false, (y1 >>> 8) % 256⟩, ⟨false, y1 &&& 0xff⟩,
   ⟨false, (y2 >>> 8) % 256⟩, ⟨false, y2 &&& 0xff⟩,
   ⟨true, 0x2c⟩]

/-- Byte stream of `TFT.setXY_L` (tft.py, landscape variant): command
0x2A with x1, x2, command 0x2B with y1, y2, then command 0x2C. -/
def setXY_L (x1 y1 x2 y2 : Nat) : List DCByte :=
  [⟨true, 0x2a⟩,
   ⟨false, (x1 >>> 8) % 256⟩, ⟨false, x1 &&& 0xff⟩,
   ⟨false, (x2 >>> 8) % 256⟩, ⟨false, x2 &&& 0xff⟩,
   ⟨true, 0x2b⟩,
   ⟨false, (y1 >>> 8) % 256⟩, ⟨false, y1 &&& 0xff⟩,
   ⟨false, (y2 >>> 8) % 256⟩, ⟨false, y2 &&& 0xff⟩,
   ⟨true, 0x2c⟩]

/-- Decoder for an address-window byte stream: expects the command
carrying the x axis, four payload bytes, the command carrying the y
axis, four payload bytes, and the memory-write-start command 0x2C;
recovers (x1, y1, x2, y2) from the big-endian byte pairs. -/
def decodeWindow (cmdX cmdY : Nat) : List DCByte → Option (Nat × Nat × Nat × Nat)
  | [⟨true, k1⟩,
     ⟨false, a1⟩, ⟨false, a2⟩, ⟨false, a3⟩, ⟨false, a4⟩,
     ⟨true, k2⟩,
     ⟨false, b1⟩, ⟨false, b2⟩, ⟨false, b3⟩, ⟨false, b4⟩,
     ⟨true, k3⟩] =>
    if k1 = cmdX ∧ k2 = cmdY ∧ k3 = 0x2c then
      some (a1 * 256 + a2, b1 * 256 + b2, a3 * 256 + a4, b3 * 256 + b4)
    else none
  | _ => none

/-- slides.py constant COUNTER: inactivity budget in pictures. -/
def COUNTER : Nat := 5

/-- slides.py constant TOTAL_COUNTER: cap on the number of pictures. -/
def TOTAL_COUNTER : Nat := 100

/-- slides.py constant TOOLOWBAT: readings at or below this value are
taken to mean the device runs from USB without a battery. -/
def TOOLOWBAT : Nat := 200

/-- slides.py constant LOWBAT = int((5.4 - OFFSET) / 3.3 / SCALING * 4096)
with SCALING = 7.86 and OFFSET = 0.0, which evaluates to 852. -/
def LOWBAT : Nat := 852

/-- slides.py constant WARNBAT = int((5.8 - OFFSET) / 3.3 / SCALING * 4096),
which evaluates to 915. -/
def WARNBAT : Nat := 915

/-- Battery gate of slides.py, used identically at the startup admission
check (line 156) and at the per-iteration re-check (line 200): the
device is sent to the pyb.stop sleep loop exactly when
`(TOOLOWBAT < batval < LOWBAT) and USBSUPPLY == False`. -/
def batShutdown (batval : Nat) (usbsupply : Bool) : Bool :=
  (decide (TOOLOWBAT < batval) && decide (batval < LOWBAT)) && !usbsupply

/-- One Running iteration of the slides.py main loop, reduced to the
counter logic of lines 218 and 222-248 in non-test mode: the total
counter is incremented when the picture is shown; if the activity flag
is clear, the inactivity counter is decremented and the controller
sleeps (`none`) when it reaches zero or the total counter exceeds
TOTAL_COUNTER; if the activity flag is set, the flag is consumed and
the inactivity counter restarts at COUNTER.  `some (start, total)` is
the state kept when the loop continues. -/
def runningStep (start : Int) (total_cnt : Nat) (pir : Bool) :
    Option (Int × Nat) :=
  let tc := total_cnt + 1
  if pir = false then
    if start - 1 ≤ 0 ∨ tc > TOTAL_COUNTER then none
    else some (start - 1, tc)
  else some ((COUNTER : Int), tc)

/-- Row byte size of the indexed-bitmap branch of `displayfile`
(slides.py lines 66-74): integer floor division of the width by the
pixels-per-byte factor, then rounded up to a multiple of 4 via
`(bsize + 3) & 0xfffc`. -/
def bmpRowSize (imgwidth colors : Nat) : Nat :=
  let bsize :=
    if colors = 1 then imgwidth / 8
    else if colors = 2 then imgwidth / 4
    else if colors = 4 then imgwidth / 2
    else imgwidth
  (bsize + 3) &&& 0xfffc

/-- Row loop of the raw-565 and raw-RGB branches of `displayfile`
(slides.py lines 43-49 and 109-115).  `reads j` is the byte count the
j-th `readinto` returns; `row` is the next row index, `cnt` the number
of remaining rows and `last` the current value of the python `row`
variable.  The result is the list of rows fed to the display together
with the final value of `row`, from which the trailing
`fillRectangle(0, row, width - 1, height - 1, (0,0,0))` clears the rest
of the panel.  Following `if not n: break`, the loop stops only when a
read returns zero bytes. -/
def rawRowLoop (reads : Nat → Nat) : Nat → Nat → Nat → Nat → List Nat × Nat
  | _, _, 0, last => ([], last)
  | k, row, cnt + 1, _ =>
    if reads k = 0 then ([], row)
    else
      let p := rawRowLoop reads (k + 1) (row + 1) cnt row
      (row :: p.1, p.2)

/-- Row loop of the bmp branches of `displayfile` (slides.py lines
77-81, 87-91 and 95-99), which walk the rows bottom-up: with `cnt`
remaining rows the current row index is `cnt - 1`, counting down to 0.
Following `if n != bsize: break`, the loop stops as soon as a read
returns anything other than the full row size `bsize`; the final value
of the python `row` variable is returned, from which the trailing
`fillRectangle(0, 0, width - 1, row, (0,0,0))` clears the still
uncovered top of the panel. -/
def bmpRowLoop (reads : Nat → Nat) (bsize : Nat) : Nat → Nat → Nat → List Nat × Nat
  | _, 0, last => ([], last)
  | k, c + 1, _ =>
    if reads k = bsize then
      let p := bmpRowLoop reads bsize (k + 1) c c
      (c :: p.1, p.2)
    else ([], c)

/-- Byte stream written to the data port by `TFT.displaySCR_bitmap`
(tft.py lines 644-764): `bits` is the glyph bitmap walked with byte
index `bm` and bit mask `mask` (0x80 down to 0x01), `control` holds
background color (0..2), foreground color (3..5) and the transparency
bitmask (6), `bg_buf` is the previously read framebuffer content
walked three bytes per pixel at `bgp`. -/
def displaySCR_bitmap : List Nat → Nat → Nat → Nat → List Nat → List Nat → Nat → List Nat
  | _, 0, _, _, _, _, _ => []
  | bits, s + 1, bm, mask, control, bg_buf, bgp =>
    let t := control.getD 6 0
    let pix :=
      if bits.getD bm 0 &&& mask ≠ 0 then
        if t &&& 8 ≠ 0 then
          [255 - bg_buf.getD bgp 0, 255 - bg_buf.getD (bgp + 1) 0,
           255 - bg_buf.getD (bgp + 2) 0]
        else
          [control.getD 3 0, control.getD 4 0, control.getD 5 0]
      else
        if t &&& 1 ≠ 0 then
          [bg_buf.getD bgp 0 >>> 1, bg_buf.getD (bgp + 1) 0 >>> 1,
           bg_buf.getD (bgp + 2) 0 >>> 1]
        else if t &&& 2 ≠ 0 then
          [bg_buf.getD bgp 0, bg_buf.getD (bgp + 1) 0, bg_buf.getD (bgp + 2) 0]
        else if t &&& 4 ≠ 0 then
          [255 - bg_buf.getD bgp 0, 255 - bg_buf.getD (bgp + 1) 0,
           255 - bg_buf.getD (bgp + 2) 0]
        else
          [control.getD 0 0, control.getD 1 0, control.getD 2 0]
    let mask' := mask >>> 1
    pix ++
      (if mask' = 0 then
        displaySCR_bitmap bits s (bm + 1) 0x80 control bg_buf (bgp + 3)
      else
        displaySCR_bitmap bits s bm mask' control bg_buf (bgp + 3))

/-- Byte stream of the viper implementation `TFT.displaySCR565`
(tft.py lines 931-950): each packed 565 pixel (bytes d0, d1 read
through an 8-bit pointer) is expanded into three bytes on the data
port; the port stores truncate modulo 256. -/
def displaySCR565 (data : List Nat) : Nat → Nat → List Nat
  | 0, _ => []
  | s + 1, p =>
    let d0 := data.getD p 0 % 256
    let d1 := data.getD (p + 1) 0 % 256
    (d0 &&& 0xf8) % 256 ::
      (d0 <<< 5 ||| (d1 >>> 3) &&& 0xfc) % 256 ::
      (d1 <<< 3) % 256 ::
      displaySCR565 data s (p + 2)

/-- Byte stream of the thumb assembler implementation
`TFT.displaySCR565_AS` (tft.py lines 1042-1090): byte loads, 32-bit
register shifts (lsl/lsr wrap modulo 2^32), or, and-masks, and byte
stores truncating modulo 256, exactly as the instruction sequence
computes them.  Note the mask order differs from the viper version:
here the whole or-result is masked with 0xfc. -/
def displaySCR565_AS (data : List Nat) : Nat → Nat → List Nat
  | 0, _ => []
  | s + 1, p =>
    let d0 := data.getD p 0 % 256
    let d1 := data.getD (p + 1) 0 % 256
    (d0 &&& 0xf8) % 256 ::
      (((d0 <<< 5) % 4294967296 ||| d1 >>> 3) &&& 0xfc) % 256 ::
      ((d1 <<< 3) % 4294967296) % 256 ::
      displaySCR565_AS data s (p + 2)

/-- One drawing primitive call issued by the rectangle routines. -/
inductive DrawOp where
  | pixel (x y : Int)
  | hline (x y l : Int)
  | vline (x y l : Int)
deriving DecidableEq, Repr

/-- Primitive calls issued by `TFT.drawClippedRectangle` (tft.py lines
461-478): corners are normalized by swapping, then the eight corner
pixels, two horizontal and two vertical lines are drawn only when both
extents exceed 4. -/
def drawClippedRectangle (x1 y1 x2 y2 : Int) : List DrawOp :=
  let u1 := if x1 > x2 then x2 else x1
  let u2 := if x1 > x2 then x1 else x2
  let v1 := if y1 > y2 then y2 else y1
  let v2 := if y1 > y2 then y1 else y2
  if u2 - u1 > 4 ∧ v2 - v1 > 4 then
    [DrawOp.pixel (u1 + 2) (v1 + 1), DrawOp.pixel (u1 + 1) (v1 + 2),
     DrawOp.pixel (u2 - 2) (v1 + 1), DrawOp.pixel (u2 - 1) (v1 + 2),
     DrawOp.pixel (u1 + 2) (v2 - 1), DrawOp.pixel (u1 + 1) (v2 - 2),
     DrawOp.pixel (u2 - 2) (v2 - 1), DrawOp.pixel (u2 - 1) (v2 - 2),
     DrawOp.hline (u1 + 3) v1 (u2 - u1 - 5), DrawOp.hline (u1 + 3) v2 (u2 - u1 - 5),
     DrawOp.vline u1 (v1 + 3) (v2 - v1 - 5), DrawOp.vline u2 (v1 + 3) (v2 - v1 - 5)]
  else []

/-- Primitive calls issued by `TFT.fillClippedRectangle` (tft.py lines
483-501): corners are normalized by swapping; when both extents exceed
4 the region is filled with pairs of horizontal lines, with fixed
insets 3/2/1 on the first three scan lines from either edge. -/
def fillClippedRectangle (x1 y1 x2 y2 : Int) : List DrawOp :=
  let u1 := if x1 > x2 then x2 else x1
  let u2 := if x1 > x2 then x1 else x2
  let v1 := if y1 > y2 then y2 else y1
  let v2 := if y1 > y2 then y1 else y2
  if u2 - u1 > 4 ∧ v2 - v1 > 4 then
    ((List.range (((v2 - v1).toNat / 2) + 1)).map (fun i =>
      if i = 0 then
        [DrawOp.hline (u1 + 3) (v1 + i) (u2 - u1 - 5),
         DrawOp.hline (u1 + 3) (v2 - i) (u2 - u1 - 5)]
      else if i = 1 then
        [DrawOp.hline (u1 + 2) (v1 + i) (u2 - u1 - 3),
         DrawOp.hline (u1 + 2) (v2 - i) (u2 - u1 - 3)]
      else if i = 2 then
        [DrawOp.hline (u1 + 1) (v1 + i) (u2 - u1 - 1),
         DrawOp.hline (u1 + 1) (v2 - i) (u2 - u1 - 1)]
      else
        [DrawOp.hline u1 (v1 + i) (u2 - u1 + 1),
         DrawOp.hline u1 (v2 - i) (u2 - u1 + 1)])).flatten
  else []

/-- The text-cursor and scroll fields of the TFT object that the
printing methods read and write. -/
structure TextState where
  text_x : Nat
  text_y : Nat
  text_width : Nat
  text_rows : Nat
  text_gap : Nat
  scroll_vsa : Nat
  scroll_start : Nat
  transparency : Nat
deriving DecidableEq, Repr

/-- One bus-level operation issued by the text renderer: an address
window, a solid fill of `count` pixels, a command with payload bytes
(`tft_cmd_data_AS`), a read transaction fetching `count` bytes after a
command (`tft_read_cmd_data_AS`), or a glyph bitmap write of `count`
pixels (`displaySCR_bitmap`). -/
inductive TFTOp where
  | setxy (a b c d : Nat)
  | fill (count : Nat)
  | cmdData (cmd : Nat) (payload : List Nat)
  | readData (cmd count : Nat)
  | bitmap (count : Nat)
deriving DecidableEq, Repr

/-- Model of `TFT.setScrollStart` (tft.py lines 582-584): writes register 0x37
with the high and low byte of `lline` and stores `lline` in
`scroll_start`. -/
def setScrollStart (st : TextState) (lline : Nat) : TextState × List TFTOp :=
  ({ st with scroll_start := lline },
   [TFTOp.cmdData 0x37 [(lline >>> 8) &&& 0xff, lline &&& 0xff]])

/-- Model of `TFT.printNewline` (tft.py lines 589-597): advances `text_y` by one
glyph row; if the new line does not fit in the scroll area, wraps
`text_y` to 0 and sets the scroll start to one row height; otherwise,
if scrolling has started, advances the scroll start by one row modulo
the scroll area height. -/
def printNewline (st : TextState) : TextState × List TFTOp :=
  let ty := st.text_y + st.text_rows
  if ty + st.text_rows > st.scroll_vsa then
    setScrollStart { st with text_y := 0 } st.text_rows
  else if st.scroll_start > 0 then
    setScrollStart { st with text_y := ty }
      ((st.scroll_start + st.text_rows) % st.scroll_vsa)
  else ({ st with text_y := ty }, [])

/-- Model of `TFT.printCR` (tft.py line 602): resets `text_x` to 0. -/
def printCR (st : TextState) : TextState :=
  { st with text_x := 0 }

/-- Operations issued by `TFT.printClrEOL` (tft.py lines 606-609). -/
def printClrEOL (st : TextState) : List TFTOp :=
  [TFTOp.setxy st.text_x st.text_y (st.text_width - st.text_x - 1)
     (st.text_y + st.text_rows - 1),
   TFTOp.fill (st.text_width * st.text_rows)]

/-- Model of `TFT.printChar` (tft.py lines 619-640) for a glyph of the given
cell size: if the glyph does not fit on the line, carriage return,
newline and clear-to-end-of-line run first; then, when the
transparency mode is non-zero, the area under the glyph is read back
(command 0x2E, cols*rows*3 bytes) before the glyph bitmap is written;
finally the cursor advances by the glyph width plus the gap. -/
def printChar (st : TextState) (cols rows : Nat) : TextState × List TFTOp :=
  let pix_count := cols * rows
  let w := if st.text_x + cols > st.text_width then
      let pB := printNewline (printCR st)
      (pB.1, pB.2 ++ printClrEOL pB.1)
    else (st, ([] : List TFTOp))
  let st1 := w.1
  let opsR := if st1.transparency ≠ 0 then
      [TFTOp.setxy st1.text_x st1.text_y (st1.text_x + cols - 1)
         (st1.text_y + rows - 1),
       TFTOp.readData 0x2e (pix_count * 3)]
    else []
  ({ st1 with text_x := st1.text_x + cols + st1.text_gap },
   w.2 ++ opsR ++
     [TFTOp.setxy st1.text_x st1.text_y (st1.text_x + cols - 1)
        (st1.text_y + rows - 1),
      TFTOp.bitmap pix_count])

/-- True exactly on the read transactions of the bus layer. -/
def isReadOp : TFTOp → Bool
  | TFTOp.readData _ _ => true
  | _ => false

/-- True exactly on the glyph bitmap writes. -/
def isGlyphWrite : TFTOp → Bool
  | TFTOp.bitmap _ => true
  | _ => false

theorem byte_pair_recovers {v : Nat} (h : v < 65536) :
    ((v >>> 8) % 256) * 256 + (v &&& 0xff) = v := by
  have h1 : v >>> 8 = v / 256 := by
    simpa using Nat.shiftRight_eq_div_pow v 8
  have h2 : v &&& 0xff = v % 256 := by
    have := Nat.and_pow_two_sub_one_eq_mod v 8
    norm_num at this
    simpa using this
  have h3 : v / 256 < 256 := by omega
  rw [h1, h2, Nat.mod_eq_of_lt h3]
  omega

theorem byte_pair_recovers_and {v : Nat} (h : v < 65536) :
    ((v >>> 8) &&& 0xff) * 256 + (v &&& 0xff) = v := by
  have h2 : (v >>> 8) &&& 0xff = (v >>> 8) % 256 := by
    have h3 := Nat.and_pow_two_sub_one_eq_mod (v >>> 8) 8
    norm_num at h3
    simpa using h3
  rw [h2]
  exact byte_pair_recovers h

/-- C1: for every address window with 16-bit coordinates, the byte
streams of setXY_P and setXY_L decode back to the same four values; in
portrait the x axis travels with command 0x2B and the y axis with 0x2A,
in landscape the two command codes are swapped. -/
theorem setXY_roundtrip (x1 y1 x2 y2 : Nat)
    (hx1 : x1 < 65536) (hy1 : y1 < 65536)
    (hx2 : x2 < 65536) (hy2 : y2 < 65536) :
    decodeWindow 0x2b 0x2a (setXY_P x1 y1 x2 y2) = some (x1, y1, x2, y2) ∧
    decodeWindow 0x2a 0x2b (setXY_L x1 y1 x2 y2) = some (x1, y1, x2, y2) := by
  constructor <;>
    simp [setXY_P, setXY_L, decodeWindow, byte_pair_recovers,
      hx1, hy1, hx2, hy2]

/-- Witness for C1 at the concrete window (1000, 2, 515, 65535). -/
theorem setXY_roundtrip_witness :
    decodeWindow 0x2b 0x2a (setXY_P 1000 2 515 65535) =
      some (1000, 2, 515, 65535) ∧
    decodeWindow 0x2a 0x2b (setXY_L 1000 2 515 65535) =
      some (1000, 2, 515, 65535) :=
  setXY_roundtrip 1000 2 515 65535 (by decide) (by decide) (by decide)
    (by decide)

/-- C3 counterexample: a battery reading of 100 is below the critical
threshold TOOLOWBAT = 200 and no external power is present, yet the
battery gate does not force the low-power sleep, contradicting the
claim that any reading below TOOLOWBAT without external power does. -/
theorem batShutdown_below_critical_no_sleep :
    100 < TOOLOWBAT ∧ batShutdown 100 false = false := by decide

/-- C3 amended: both battery checks force the low-power sleep exactly
when the reading is strictly between TOOLOWBAT and LOWBAT and no
external power source is present; readings at or below TOOLOWBAT never
force the sleep. -/
theorem batShutdown_iff (batval : Nat) (usbsupply : Bool) :
    batShutdown batval usbsupply = true ↔
      TOOLOWBAT < batval ∧ batval < LOWBAT ∧ usbsupply = false := by
  simp [batShutdown, and_assoc]

/-- C4 counterexample: with the total counter already beyond the cap
(total_cnt = 100, so the shown picture is number 101 > TOTAL_COUNTER)
but the activity flag set, the controller does not sleep: the whole
cap check is skipped and the iteration stays in Running, contradicting
the claim that the total-cap transition occurs even on iterations with
the activity flag set. -/
theorem runningStep_cap_ignored_when_active :
    100 + 1 > TOTAL_COUNTER ∧
      runningStep 3 100 true = some ((COUNTER : Int), 101) := by decide

/-- C4 amended: in the Running state the controller transitions to
LowPowerSleep exactly when the activity flag is clear and either the
decremented inactivity counter has reached zero or the incremented
total counter exceeds TOTAL_COUNTER; when the activity flag is set no
sleep transition happens (even beyond the total cap) and the
inactivity counter is reset to its initial value COUNTER. -/
theorem runningStep_spec (start : Int) (total_cnt : Nat) (pir : Bool) :
    (runningStep start total_cnt pir = none ↔
      pir = false ∧ (start - 1 ≤ 0 ∨ total_cnt + 1 > TOTAL_COUNTER)) ∧
    (pir = true →
      runningStep start total_cnt pir = some ((COUNTER : Int), total_cnt + 1)) := by
  constructor
  · cases pir with
    | false =>
        show (if start - 1 ≤ 0 ∨ total_cnt + 1 > TOTAL_COUNTER then none
              else some (start - 1, total_cnt + 1)) = none ↔ _
        by_cases h : start - 1 ≤ 0 ∨ total_cnt + 1 > TOTAL_COUNTER
        · rw [if_pos h]
          simp only [true_iff, eq_self_iff_true, true_and]
          omega
        · rw [if_neg h]
          simp only [reduceCtorEq, false_iff, not_and, not_or]
          omega
    | true => simp [runningStep]
  · intro hp
    subst hp
    simp [runningStep]

/-- Witness for C4 amended: an interrupt during Running resets the
inactivity counter to COUNTER, here on a concrete state. -/
theorem runningStep_spec_witness :
    runningStep 2 7 true = some ((COUNTER : Int), 8) :=
  (runningStep_spec 2 7 true).2 rfl

/-- C5: for a 1 bit-per-pixel bitmap of width 33 the code sizes the row
as `(33 / 8 + 3) & 0xfffc = 4` bytes, while the bitmap format (and the
claim) require `ceil(33 * 1 / 8) = 5` bytes rounded up to the 4-byte
boundary, i.e. 8 bytes: the code uses floor instead of ceiling when
converting the bit count to bytes, so it under-reads every row whose
bit width is not a whole number of bytes. -/
theorem bmpRowSize_floor_bug :
    bmpRowSize 33 1 = 4 ∧ ((33 * 1 + 7) / 8 + 3) &&& 0xfffc = 8 := by
  decide

theorem rawRowLoop_spec (reads : Nat → Nat) :
    ∀ (cnt k row last : Nat),
      (rawRowLoop reads k row cnt last).1.length ≤ cnt ∧
      (rawRowLoop reads k row cnt last).1 =
        List.range' row (rawRowLoop reads k row cnt last).1.length ∧
      (∀ j < (rawRowLoop reads k row cnt last).1.length, reads (k + j) ≠ 0) ∧
      ((rawRowLoop reads k row cnt last).1.length < cnt →
        reads (k + (rawRowLoop reads k row cnt last).1.length) = 0 ∧
        (rawRowLoop reads k row cnt last).2 =
          row + (rawRowLoop reads k row cnt last).1.length) := by
  intro cnt
  induction cnt with
  | zero =>
    intro k row last
    simp [rawRowLoop]
  | succ c ih =>
    intro k row last
    by_cases h : reads k = 0
    · simp only [rawRowLoop, if_pos h]
      refine ⟨by simp, by simp, by simp, ?_⟩
      intro _
      simpa using h
    · simp only [rawRowLoop, if_neg h]
      obtain ⟨ih1, ih2, ih3, ih4⟩ := ih (k + 1) (row + 1) row
      refine ⟨by simpa using ih1, ?_, ?_, ?_⟩
      · simp only [List.length_cons]
        rw [List.range'_succ]
        simpa using ih2
      · intro j hj
        cases j with
        | zero => simpa using h
        | succ i =>
          have := ih3 i (by simpa using hj)
          simpa [Nat.add_assoc, Nat.add_comm 1 i] using this
      · intro hlt
        have hlt' : (rawRowLoop reads (k + 1) (row + 1) c row).1.length < c := by
          simpa using hlt
        obtain ⟨h1, h2⟩ := ih4 hlt'
        constructor
        · simpa [Nat.add_assoc, Nat.add_comm 1 _] using h1
        · simpa [Nat.add_assoc, Nat.add_comm 1 _] using h2

theorem bmpRowLoop_spec (reads : Nat → Nat) (bsize : Nat) :
    ∀ (cnt k last : Nat),
      (bmpRowLoop reads bsize k cnt last).1.length ≤ cnt ∧
      (bmpRowLoop reads bsize k cnt last).1 =
        (List.range (bmpRowLoop reads bsize k cnt last).1.length).map
          (fun j => cnt - 1 - j) ∧
      (∀ j < (bmpRowLoop reads bsize k cnt last).1.length,
        reads (k + j) = bsize) ∧
      ((bmpRowLoop reads bsize k cnt last).1.length < cnt →
        reads (k + (bmpRowLoop reads bsize k cnt last).1.length) ≠ bsize ∧
        (bmpRowLoop reads bsize k cnt last).2 =
          cnt - 1 - (bmpRowLoop reads bsize k cnt last).1.length) := by
  intro cnt
  induction cnt with
  | zero =>
    intro k last
    simp [bmpRowLoop]
  | succ c ih =>
    intro k last
    by_cases h : reads k = bsize
    · simp only [bmpRowLoop, if_pos h]
      obtain ⟨ih1, ih2, ih3, ih4⟩ := ih (k + 1) c
      refine ⟨by simpa using ih1, ?_, ?_, ?_⟩
      · simp only [List.length_cons]
        rw [List.range_succ_eq_map, List.map_cons, List.map_map]
        refine List.cons_eq_cons.mpr ⟨by omega, ?_⟩
        rw [ih2]
        simp only [List.length_map, List.length_range]
        apply List.map_congr_left
        intro j _
        show c - 1 - j = c + 1 - 1 - (j + 1)
        omega
      · intro j hj
        cases j with
        | zero => simpa using h
        | succ i =>
          have := ih3 i (by simpa using hj)
          simpa [Nat.add_assoc, Nat.add_comm 1 i] using this
      · intro hlt
        have hlt' : (bmpRowLoop reads bsize (k + 1) c c).1.length < c := by
          simpa using hlt
        obtain ⟨h1, h2⟩ := ih4 hlt'
        refine ⟨?_, ?_⟩
        · intro hc
          apply h1
          simpa [Nat.add_assoc, Nat.add_comm 1 _] using hc
        · simp only [List.length_cons]
          rw [h2]
          omega
    · simp only [bmpRowLoop, if_neg h]
      refine ⟨by simp, by simp, by simp, ?_⟩
      intro _
      exact ⟨by simpa using h, by simp⟩

/-- C6 counterexample: in the raw-565 decoder a row read that returns
100 bytes, fewer than the 480 bytes of a full row of a width-240
image, is not treated as end of image: the row is still fed to the
display, and so is the next one, contradicting the claim that any
short read stops the decode in every decoder. -/
theorem raw_short_read_row_still_drawn :
    (rawRowLoop (fun _ => 100) 0 0 2 0).1 = [0, 1] ∧ (100 : Nat) < 480 := by
  decide

/-- C6 amended: the bmp decoder stops at the first read that returns
anything other than the full row size, while the raw-565 and raw-RGB
decoders stop only at the first read that returns zero bytes (a short
but non-empty read is still fed to the display); in each case the rows
fed to the display are exactly the rows before the stopping read, and
the final row value from which the undrawn remainder of the panel is
cleared is exactly the first undrawn row (the stopping row), with no
exception raised. -/
theorem decoder_short_read (reads : Nat → Nat) (bsize k row cnt last : Nat) :
    ((rawRowLoop reads k row cnt last).1.length ≤ cnt ∧
     (rawRowLoop reads k row cnt last).1 =
       List.range' row (rawRowLoop reads k row cnt last).1.length ∧
     (∀ j < (rawRowLoop reads k row cnt last).1.length, reads (k + j) ≠ 0) ∧
     ((rawRowLoop reads k row cnt last).1.length < cnt →
       reads (k + (rawRowLoop reads k row cnt last).1.length) = 0 ∧
       (rawRowLoop reads k row cnt last).2 =
         row + (rawRowLoop reads k row cnt last).1.length)) ∧
    ((bmpRowLoop reads bsize k cnt last).1.length ≤ cnt ∧
     (bmpRowLoop reads bsize k cnt last).1 =
       (List.range (bmpRowLoop reads bsize k cnt last).1.length).map
         (fun j => cnt - 1 - j) ∧
     (∀ j < (bmpRowLoop reads bsize k cnt last).1.length,
       reads (k + j) = bsize) ∧
     ((bmpRowLoop reads bsize k cnt last).1.length < cnt →
       reads (k + (bmpRowLoop reads bsize k cnt last).1.length) ≠ bsize ∧
       (bmpRowLoop reads bsize k cnt last).2 =
         cnt - 1 - (bmpRowLoop reads bsize k cnt last).1.length)) :=
  ⟨rawRowLoop_spec reads cnt k row last, bmpRowLoop_spec reads bsize cnt k last⟩

/-- Witness for C6 amended, with reads returning one full 480-byte row
and then 0: the raw loop stops at its second row with the clear
starting there, and the bmp loop stops at its second (descending) row
with the clear covering the rows above it. -/
theorem decoder_short_read_witness :
    ((fun j => if j = 0 then 480 else 0) (0 + (rawRowLoop (fun j => if j = 0 then 480 else 0) 0 3 4 0).1.length) = 0 ∧
      (rawRowLoop (fun j => if j = 0 then 480 else 0) 0 3 4 0).2 =
        3 + (rawRowLoop (fun j => if j = 0 then 480 else 0) 0 3 4 0).1.length) ∧
    ((fun j => if j = 0 then 480 else 0) (0 + (bmpRowLoop (fun j => if j = 0 then 480 else 0) 480 0 4 0).1.length) ≠ 480 ∧
      (bmpRowLoop (fun j => if j = 0 then 480 else 0) 480 0 4 0).2 =
        4 - 1 - (bmpRowLoop (fun j => if j = 0 then 480 else 0) 480 0 4 0).1.length) := by
  have h := decoder_short_read (fun j => if j = 0 then 480 else 0) 480 0 3 4 0
  exact ⟨h.1.2.2.2 (by decide), h.2.2.2.2 (by decide)⟩

/-- C2: the pixel triplet emitted by displaySCR_bitmap for the current
glyph bit follows the claimed precedence: a set bit with transparency
bit 8 emits the inverted background-buffer bytes (overriding every
other mode bit), a set bit otherwise emits the fixed foreground color
(control bytes 3..5); a clear bit selects exactly one background
policy, tested in order: dim (bit 1, byte shifted right once), keep
(bit 2, byte passed through), invert (bit 4, 255 minus byte), else the
fixed background color (control bytes 0..2). -/
theorem displaySCR_bitmap_precedence (bits control bg_buf : List Nat)
    (s bm mask bgp : Nat) (out : List Nat) (t : Nat)
    (hout : out = displaySCR_bitmap bits (s + 1) bm mask control bg_buf bgp)
    (ht : t = control.getD 6 0) :
    (bits.getD bm 0 &&& mask ≠ 0 → t &&& 8 ≠ 0 →
      out.take 3 = [255 - bg_buf.getD bgp 0, 255 - bg_buf.getD (bgp + 1) 0,
        255 - bg_buf.getD (bgp + 2) 0]) ∧
    (bits.getD bm 0 &&& mask ≠ 0 → t &&& 8 = 0 →
      out.take 3 = [control.getD 3 0, control.getD 4 0, control.getD 5 0]) ∧
    (bits.getD bm 0 &&& mask = 0 → t &&& 1 ≠ 0 →
      out.take 3 = [bg_buf.getD bgp 0 >>> 1, bg_buf.getD (bgp + 1) 0 >>> 1,
        bg_buf.getD (bgp + 2) 0 >>> 1]) ∧
    (bits.getD bm 0 &&& mask = 0 → t &&& 1 = 0 → t &&& 2 ≠ 0 →
      out.take 3 = [bg_buf.getD bgp 0, bg_buf.getD (bgp + 1) 0,
        bg_buf.getD (bgp + 2) 0]) ∧
    (bits.getD bm 0 &&& mask = 0 → t &&& 1 = 0 → t &&& 2 = 0 → t &&& 4 ≠ 0 →
      out.take 3 = [255 - bg_buf.getD bgp 0, 255 - bg_buf.getD (bgp + 1) 0,
        255 - bg_buf.getD (bgp + 2) 0]) ∧
    (bits.getD bm 0 &&& mask = 0 → t &&& 1 = 0 → t &&& 2 = 0 → t &&& 4 = 0 →
      out.take 3 = [control.getD 0 0, control.getD 1 0, control.getD 2 0]) := by
  subst hout ht
  refine ⟨?_, ?_, ?_, ?_, ?_, ?_⟩ <;>
    intros <;>
    simp_all [displaySCR_bitmap]

/-- Witness for C2: a set glyph bit with transparency 15 (bits 1, 2, 4
and 8 all set) emits the inverted background bytes, showing bit 8
overrides the other mode bits. -/
theorem displaySCR_bitmap_precedence_witness :
    (displaySCR_bitmap [128] 1 0 128 [1, 2, 3, 4, 5, 6, 15] [10, 20, 30] 0).take 3 =
      [245, 235, 225] := by
  have h := displaySCR_bitmap_precedence [128] [1, 2, 3, 4, 5, 6, 15] [10, 20, 30]
    0 0 128 0 (displaySCR_bitmap [128] 1 0 128 [1, 2, 3, 4, 5, 6, 15] [10, 20, 30] 0)
    ([1, 2, 3, 4, 5, 6, 15].getD 6 0) rfl rfl
  exact h.1 (by decide) (by decide)

theorem byte565_green (a b : Nat) (ha : a < 256) :
    (((a <<< 5) % 4294967296 ||| b >>> 3) &&& 0xfc) % 256 =
      (a <<< 5 ||| (b >>> 3) &&& 0xfc) % 256 := by
  have h1 : a <<< 5 % 4294967296 = a <<< 5 := by
    apply Nat.mod_eq_of_lt
    have h2 : a <<< 5 = a * 32 := by simp [Nat.shiftLeft_eq]
    omega
  rw [h1]
  apply Nat.eq_of_testBit_eq
  intro i
  rcases Nat.lt_or_ge i 8 with hi | hi
  · rw [show (256 : Nat) = 2 ^ 8 from rfl]
    simp only [Nat.testBit_mod_two_pow, Nat.testBit_and, Nat.testBit_or,
      Nat.testBit_shiftLeft]
    interval_cases i <;> simp [Nat.testBit_to_div_mod]
  · rw [show (256 : Nat) = 2 ^ 8 from rfl]
    simp only [Nat.testBit_mod_two_pow]
    have h3 : ¬ i < 8 := by omega
    simp [h3]

theorem byte565_blue (b : Nat) : ((b <<< 3) % 4294967296) % 256 = (b <<< 3) % 256 :=
  Nat.mod_mod_of_dvd _ (by norm_num)

/-- C9: the viper and the assembler implementations of the packed-565
expander emit the identical byte sequence for every input buffer,
every pixel count and every start offset; per pixel with stored bytes
d0, d1 the three bytes are d0 masked with 0xF8, then d0 shifted left
by 5 or-ed with d1 shifted right by 3 and masked with 0xFC, then d1
shifted left by 3, each truncated to 8 bits. -/
theorem displaySCR565_AS_eq_displaySCR565 (data : List Nat) :
    ∀ (size p : Nat), displaySCR565_AS data size p = displaySCR565 data size p := by
  intro size
  induction size with
  | zero => intro p; rfl
  | succ s ih =>
    intro p
    simp only [displaySCR565, displaySCR565_AS]
    rw [byte565_green _ _ (Nat.mod_lt _ (by norm_num)), byte565_blue, ih]

/-- C10: both clipped-rectangle routines first normalize the corners;
if the normalized extent in either axis is at most 4 they issue no
drawing call at all, and whenever both extents strictly exceed 4 they
issue at least one drawing call. -/
theorem clippedRectangle_small_empty (x1 y1 x2 y2 : Int) :
    ((max x1 x2 - min x1 x2 ≤ 4 ∨ max y1 y2 - min y1 y2 ≤ 4) →
      drawClippedRectangle x1 y1 x2 y2 = [] ∧
      fillClippedRectangle x1 y1 x2 y2 = []) ∧
    ((4 < max x1 x2 - min x1 x2 ∧ 4 < max y1 y2 - min y1 y2) →
      drawClippedRectangle x1 y1 x2 y2 ≠ [] ∧
      fillClippedRectangle x1 y1 x2 y2 ≠ []) := by
  have hu1 : (if x1 > x2 then x2 else x1) = min x1 x2 := by
    rcases le_or_lt x1 x2 with h | h <;> simp [min_def, h] <;> omega
  have hu2 : (if x1 > x2 then x1 else x2) = max x1 x2 := by
    rcases le_or_lt x1 x2 with h | h <;> simp [max_def, h] <;> omega
  have hv1 : (if y1 > y2 then y2 else y1) = min y1 y2 := by
    rcases le_or_lt y1 y2 with h | h <;> simp [min_def, h] <;> omega
  have hv2 : (if y1 > y2 then y1 else y2) = max y1 y2 := by
    rcases le_or_lt y1 y2 with h | h <;> simp [max_def, h] <;> omega
  constructor
  · intro h
    have hcond : ¬ (max x1 x2 - min x1 x2 > 4 ∧ max y1 y2 - min y1 y2 > 4) := by
      omega
    constructor
    · simp only [drawClippedRectangle, hu1, hu2, hv1, hv2]
      rw [if_neg hcond]
    · simp only [fillClippedRectangle, hu1, hu2, hv1, hv2]
      rw [if_neg hcond]
  · intro h
    constructor
    · simp only [drawClippedRectangle, hu1, hu2, hv1, hv2]
      rw [if_pos h]
      simp
    · simp only [fillClippedRectangle, hu1, hu2, hv1, hv2]
      rw [if_pos h, List.range_succ_eq_map]
      simp

/-- Witness for C10 at concrete corners: a 4-wide rectangle (given in
swapped corner order) draws nothing; a 10 by 10 one draws something. -/
theorem clippedRectangle_small_empty_witness :
    (drawClippedRectangle 4 10 0 0 = [] ∧ fillClippedRectangle 4 10 0 0 = []) ∧
    (drawClippedRectangle 0 0 10 10 ≠ [] ∧ fillClippedRectangle 0 0 10 10 ≠ []) :=
  ⟨(clippedRectangle_small_empty 4 10 0 0).1 (by decide),
   (clippedRectangle_small_empty 0 0 10 10).2 (by decide)⟩

theorem printNewline_transparency (st : TextState) :
    (printNewline st).1.transparency = st.transparency := by
  simp only [printNewline, setScrollStart]
  split
  · rfl
  · split <;> rfl

theorem printNewline_ops_shape (st : TextState) :
    (printNewline st).2 = [] ∨
      ∃ pay, (printNewline st).2 = [TFTOp.cmdData 0x37 pay] := by
  simp only [printNewline, setScrollStart]
  split
  · exact Or.inr ⟨_, rfl⟩
  · split
    · exact Or.inr ⟨_, rfl⟩
    · exact Or.inl rfl

/-- C7: when the transparency mode is non-zero, the read transactions
and glyph writes issued by printChar are exactly one read with command
0x2E fetching cols*rows*3 bytes followed by one glyph bitmap write of
cols*rows pixels - so the framebuffer under the glyph is read before
any pixel of the glyph is written; when the transparency mode is zero,
printChar issues no read transaction at all. -/
theorem printChar_readback (st : TextState) (cols rows : Nat) :
    (st.transparency ≠ 0 →
      (printChar st cols rows).2.filter (fun op => isReadOp op || isGlyphWrite op) =
        [TFTOp.readData 0x2e (cols * rows * 3), TFTOp.bitmap (cols * rows)]) ∧
    (st.transparency = 0 →
      (printChar st cols rows).2.filter isReadOp = []) := by
  have htr : (printNewline (printCR st)).1.transparency = st.transparency := by
    rw [printNewline_transparency]
    rfl
  by_cases hw : st.text_x + cols > st.text_width
  · constructor
    · intro ht
      have ht1 : (printNewline (printCR st)).1.transparency ≠ 0 := by
        rw [htr]; exact ht
      rcases printNewline_ops_shape (printCR st) with h0 | ⟨pay, h1⟩
      · simp [printChar, hw, ht1, h0, printClrEOL, isReadOp, isGlyphWrite]
      · simp [printChar, hw, ht1, h1, printClrEOL, isReadOp, isGlyphWrite]
    · intro ht
      have ht1 : ¬ (printNewline (printCR st)).1.transparency ≠ 0 := by
        rw [htr, ht]; simp
      rcases printNewline_ops_shape (printCR st) with h0 | ⟨pay, h1⟩
      · simp [printChar, hw, ht1, h0, printClrEOL, isReadOp, isGlyphWrite]
      · simp [printChar, hw, ht1, h1, printClrEOL, isReadOp, isGlyphWrite]
  · constructor
    · intro ht
      simp [printChar, hw, ht, isReadOp, isGlyphWrite]
    · intro ht
      have ht1 : ¬ st.transparency ≠ 0 := by rw [ht]; simp
      simp [printChar, hw, ht1, isReadOp, isGlyphWrite]

/-- Witness for C7: a concrete state with transparency mode 2 and an
8 by 14 glyph that fits on the line; among the read and glyph-write
operations the 8*14*3-byte read at command 0x2E comes first. -/
theorem printChar_readback_witness :
    (printChar ⟨0, 0, 240, 14, 0, 800, 0, 2⟩ 8 14).2.filter
        (fun op => isReadOp op || isGlyphWrite op) =
      [TFTOp.readData 0x2e (8 * 14 * 3), TFTOp.bitmap (8 * 14)] :=
  (printChar_readback ⟨0, 0, 240, 14, 0, 800, 0, 2⟩ 8 14).1 (by decide)

/-- C8: printNewline advances text_y by one row height; if the new
text_y plus one row exceeds scroll_vsa, text_y wraps to 0 and the
hardware scroll-start register is written with one row height;
otherwise if scroll_start is positive the register is written with
(scroll_start + text_rows) mod scroll_vsa; in both register-writing
cases the stored scroll_start equals the 16-bit value encoded in the
two payload bytes written to register 0x37, and when neither case
applies no register write happens and scroll_start is unchanged. -/
theorem printNewline_spec (st : TextState)
    (hrows : st.text_rows < 65536) (hvsa : st.scroll_vsa ≤ 65536)
    (hvsa0 : 0 < st.scroll_vsa) :
    (st.text_y + st.text_rows + st.text_rows > st.scroll_vsa →
      (printNewline st).1.text_y = 0 ∧
      (printNewline st).1.scroll_start = st.text_rows ∧
      (printNewline st).2 =
        [TFTOp.cmdData 0x37 [(st.text_rows >>> 8) &&& 0xff, st.text_rows &&& 0xff]] ∧
      ((st.text_rows >>> 8) &&& 0xff) * 256 + (st.text_rows &&& 0xff) =
        (printNewline st).1.scroll_start) ∧
    (¬ st.text_y + st.text_rows + st.text_rows > st.scroll_vsa →
      st.scroll_start > 0 →
      (printNewline st).1.text_y = st.text_y + st.text_rows ∧
      (printNewline st).1.scroll_start =
        (st.scroll_start + st.text_rows) % st.scroll_vsa ∧
      (printNewline st).2 =
        [TFTOp.cmdData 0x37
          [(((st.scroll_start + st.text_rows) % st.scroll_vsa) >>> 8) &&& 0xff,
           ((st.scroll_start + st.text_rows) % st.scroll_vsa) &&& 0xff]] ∧
      ((((st.scroll_start + st.text_rows) % st.scroll_vsa) >>> 8) &&& 0xff) * 256 +
        (((st.scroll_start + st.text_rows) % st.scroll_vsa) &&& 0xff) =
        (printNewline st).1.scroll_start) ∧
    (¬ st.text_y + st.text_rows + st.text_rows > st.scroll_vsa →
      st.scroll_start = 0 →
      (printNewline st).1.text_y = st.text_y + st.text_rows ∧
      (printNewline st).1.scroll_start = st.scroll_start ∧
      (printNewline st).2 = []) := by
  refine ⟨?_, ?_, ?_⟩
  · intro h
    have hpn : printNewline st = setScrollStart { st with text_y := 0 } st.text_rows := by
      simp only [printNewline, if_pos h]
    rw [hpn]
    refine ⟨rfl, rfl, rfl, ?_⟩
    show ((st.text_rows >>> 8) &&& 0xff) * 256 + (st.text_rows &&& 0xff) = st.text_rows
    exact byte_pair_recovers_and hrows
  · intro h hs
    have hpn : printNewline st =
        setScrollStart { st with text_y := st.text_y + st.text_rows }
          ((st.scroll_start + st.text_rows) % st.scroll_vsa) := by
      simp only [printNewline, if_neg h, if_pos hs]
    rw [hpn]
    have hlt : (st.scroll_start + st.text_rows) % st.scroll_vsa < 65536 :=
      lt_of_lt_of_le (Nat.mod_lt _ hvsa0) hvsa
    refine ⟨rfl, rfl, rfl, ?_⟩
    show ((((st.scroll_start + st.text_rows) % st.scroll_vsa) >>> 8) &&& 0xff) * 256 +
        (((st.scroll_start + st.text_rows) % st.scroll_vsa) &&& 0xff) =
      (st.scroll_start + st.text_rows) % st.scroll_vsa
    exact byte_pair_recovers_and hlt
  · intro h hs
    have hs' : ¬ st.scroll_start > 0 := by omega
    have hpn : printNewline st =
        ({ st with text_y := st.text_y + st.text_rows }, []) := by
      simp only [printNewline, if_neg h, if_neg hs']
    rw [hpn]
    exact ⟨rfl, rfl, rfl⟩

/-- Witness for C8 on a concrete state in the scroll-advance case:
text_rows 14, scroll_vsa 800, scroll_start 14. -/
theorem printNewline_spec_witness :
    (printNewline ⟨0, 0, 240, 14, 0, 800, 14, 0⟩).1.text_y = 0 + 14 ∧
    (printNewline ⟨0, 0, 240, 14, 0, 800, 14, 0⟩).1.scroll_start = (14 + 14) % 800 ∧
    (printNewline ⟨0, 0, 240, 14, 0, 800, 14, 0⟩).2 =
      [TFTOp.cmdData 0x37 [(((14 + 14) % 800) >>> 8) &&& 0xff, ((14 + 14) % 800) &&& 0xff]] ∧
    ((((14 + 14) % 800) >>> 8) &&& 0xff) * 256 + (((14 + 14) % 800) &&& 0xff) =
      (printNewline ⟨0, 0, 240, 14, 0, 800, 14, 0⟩).1.scroll_start :=
  (printNewline_spec ⟨0, 0, 240, 14, 0, 800, 14, 0⟩ (by decide) (by decide)
    (by decide)).2.1 (by decide) (by decide)

end TFTModel
